import Mathlib

/-!
Verification development for the FlowForge Windows VPN client core
(`src/Core/Client`): a shallow embedding of the network configurator,
network rollback, firewall rules, and DNS override components, with
theorems settling the specified properties.

Machine words are modelled as `Nat`; OS calls (registry, routing table,
firewall COM) are modelled as explicit state passing; fallible operations
return `Except`/`Option` or carry an explicit error component.
-/

deriving instance DecidableEq for Except

namespace FlowForge

/-! ## Address-literal parsing

The source validates every address literal through the Windows
`InetPtonA`/`InetPtonW` API (`Network.cpp: ipv4_from_string_`,
`ipv6_from_string_`; `DNS.cpp: DNS::IsIPv4`, `DNS::IsIPv6`).  That API is
documented to implement the standard strict presentation-format parser
(BSD `inet_pton`): dotted-decimal with exactly four octets and no leading
zeros for IPv4; RFC 4291 text form with at most one `::` and an optional
trailing embedded IPv4 for IPv6.  The functions below are a functional
translation of that contract. -/

def isDecDigit (c : Char) : Bool :=
  '0' ≤ c && c ≤ '9'

def decVal (c : Char) : Nat :=
  c.toNat - '0'.toNat

def isHexDigitChar (c : Char) : Bool :=
  isDecDigit c || ('a' ≤ c && c ≤ 'f') || ('A' ≤ c && c ≤ 'F')

def hexVal (c : Char) : Nat :=
  if isDecDigit c then decVal c
  else if 'a' ≤ c && c ≤ 'f' then c.toNat - 'a'.toNat + 10
  else c.toNat - 'A'.toNat + 10

/-- Core loop of the strict IPv4 presentation parser (`inet_pton4`):
`cur` is the octet being accumulated, `octets` the number of octets
started, `sawDigit` whether the current octet has at least one digit,
`acc` the completed octets. -/
def pton4Core : List Char → Nat → Nat → Bool → List Nat → Option (List Nat)
  | [], cur, octets, _, acc =>
      if octets < 4 then none else some (acc ++ [cur])
  | c :: rest, cur, octets, sawDigit, acc =>
      if isDecDigit c then
        let u := cur * 10 + decVal c
        if sawDigit && cur == 0 then none
        else if u > 255 then none
        else if !sawDigit then
          if octets + 1 > 4 then none
          else pton4Core rest u (octets + 1) true acc
        else pton4Core rest u octets true acc
      else if c == '.' && sawDigit then
        if octets == 4 then none
        else pton4Core rest 0 octets false (acc ++ [cur])
      else none

/-- Strict IPv4 presentation parser: returns the four octets on success. -/
def pton4 (s : List Char) : Option (List Nat) :=
  pton4Core s 0 0 false []

/-- Final step of the IPv6 parser: flush a pending hex group, then expand
the `::` gap (recorded as a byte offset in `colonp`) with zero bytes. -/
def pton6Finish (sawX : Bool) (val : Nat) (bytes : List Nat)
    (colonp : Option Nat) : Option (List Nat) :=
  let flushed : Option (List Nat) :=
    if sawX then
      if bytes.length + 2 > 16 then none
      else some (bytes ++ [val / 256, val % 256])
    else some bytes
  match flushed with
  | none => none
  | some bs =>
    match colonp with
    | some cp =>
        if bs.length == 16 then none
        else some (bs.take cp ++ List.replicate (16 - bs.length) 0 ++ bs.drop cp)
    | none => if bs.length == 16 then some bs else none

/-- Core loop of the IPv6 presentation parser (`inet_pton6`): `curtok`
is the suffix starting at the current group (used for the embedded-IPv4
case), `val` the hex group being accumulated, `bytes` the bytes written
so far, `colonp` the byte offset of the `::` marker if seen. -/
def pton6Core : List Char → List Char → Bool → Nat → List Nat → Option Nat →
    Option (List Nat)
  | [], _, sawX, val, bytes, colonp => pton6Finish sawX val bytes colonp
  | c :: rest, curtok, sawX, val, bytes, colonp =>
      if isHexDigitChar c then
        let v := val * 16 + hexVal c
        if v > 0xffff then none
        else pton6Core rest curtok true v bytes colonp
      else if c == ':' then
        if !sawX then
          match colonp with
          | some _ => none
          | none => pton6Core rest rest false 0 bytes (some bytes.length)
        else if rest.isEmpty then none
        else if bytes.length + 2 > 16 then none
        else pton6Core rest rest false 0 (bytes ++ [val / 256, val % 256]) colonp
      else if c == '.' && bytes.length + 4 ≤ 16 then
        match pton4 curtok with
        | some quad => pton6Finish false 0 (bytes ++ quad) colonp
        | none => none
      else none

/-- Strict IPv6 presentation parser: returns the sixteen bytes on
success.  A leading `:` is only allowed as part of a leading `::`. -/
def pton6 (s : List Char) : Option (List Nat) :=
  match s with
  | ':' :: rest =>
    match rest with
    | ':' :: _ => pton6Core rest rest false 0 [] none
    | _ => none
  | _ => pton6Core s s false 0 [] none

/-- `DNS::IsIPv4` / `Network.cpp ipv4_from_string_`: the string is a
valid IPv4 literal. -/
def IsIPv4 (s : String) : Bool :=
  (pton4 s.toList).isSome

/-- `DNS::IsIPv6` / `Network.cpp ipv6_from_string_`: the string is a
valid IPv6 literal. -/
def IsIPv6 (s : String) : Bool :=
  (pton6 s.toList).isSome

example : IsIPv4 "10.200.0.1" = true := by decide
example : IsIPv4 "1.1.1.1" = true := by decide
example : IsIPv4 "198.51.100.7" = true := by decide
example : IsIPv4 "256.1.1.1" = false := by decide
example : IsIPv4 "01.2.3.4" = false := by decide
example : IsIPv4 "not.an.ip" = false := by decide
example : IsIPv4 "fd00::1" = false := by decide
example : IsIPv6 "fd00::1" = true := by decide
example : IsIPv6 "fd00::2" = true := by decide
example : IsIPv6 "::" = true := by decide
example : IsIPv6 "::1" = true := by decide
example : IsIPv6 "8000::" = true := by decide
example : IsIPv6 "1:2:3:4:5:6:7:8" = true := by decide
example : IsIPv6 "1:2:3:4:5:6:7:8:9" = false := by decide
example : IsIPv6 "1::2::3" = false := by decide
example : IsIPv6 "10.200.0.1" = false := by decide
example : IsIPv6 "::ffff:1.2.3.4" = true := by decide
example : IsIPv6 "not.an.ip" = false := by decide
example : IsIPv6 "198.51.100.7" = false := by decide

/-! ## Network configurator (`src/Core/Client/Network.cpp`)

Routing-table mutations are modelled as a trace of `NetOp` operations;
the OS routing environment (current best route to the server, fallback
default route, success of the host-route install) is an explicit
parameter. -/

namespace Network

inductive IpVersion where
  | V4
  | V6
deriving DecidableEq, Repr

/-- `Network.cpp` file-scope globals `g_LOCAL4`/`g_PEER4`/`g_LOCAL6`/
`g_PEER6`/`g_mtu` together with the `AddressPlan` input record (the two
share field names and defaults). -/
structure AddressPlan where
  local4 : String
  peer4 : String
  local6 : String
  peer6 : String
  mtu : Nat
deriving DecidableEq, Repr

/-- Initial values of the `Network.cpp` globals. -/
def defaultPlan : AddressPlan :=
  { local4 := "10.200.0.2"
    peer4 := "10.200.0.1"
    local6 := "fd00:dead:beef::2"
    peer6 := "fd00:dead:beef::1"
    mtu := 1400 }

/-- `Network.cpp is_v6_string`: `s.find(':') != npos`. -/
def is_v6_string (s : String) : Bool :=
  s.toList.contains ':'

/-- `Network::SetAddressPlan` (`Network.cpp` lines 631-672): validates
each non-empty field and updates the globals; the MTU is accepted only
when `576 ≤ mtu ≤ 9000` (note: the bound in the code is 9000). -/
def SetAddressPlan (g : AddressPlan) (plan : AddressPlan) :
    Except String AddressPlan :=
  let step1 : Except String AddressPlan :=
    if plan.local4 ≠ "" then
      if IsIPv4 plan.local4 then .ok { g with local4 := plan.local4 }
      else .error "Network::SetAddressPlan: invalid local4"
    else .ok g
  match step1 with
  | .error e => .error e
  | .ok g =>
  let step2 : Except String AddressPlan :=
    if plan.peer4 ≠ "" then
      if IsIPv4 plan.peer4 then .ok { g with peer4 := plan.peer4 }
      else .error "Network::SetAddressPlan: invalid peer4"
    else .ok g
  match step2 with
  | .error e => .error e
  | .ok g =>
  let step3 : Except String AddressPlan :=
    if plan.local6 ≠ "" then
      if IsIPv6 plan.local6 then .ok { g with local6 := plan.local6 }
      else .error "Network::SetAddressPlan: invalid local6"
    else .ok g
  match step3 with
  | .error e => .error e
  | .ok g =>
  let step4 : Except String AddressPlan :=
    if plan.peer6 ≠ "" then
      if IsIPv6 plan.peer6 then .ok { g with peer6 := plan.peer6 }
      else .error "Network::SetAddressPlan: invalid peer6"
    else .ok g
  match step4 with
  | .error e => .error e
  | .ok g =>
  if plan.mtu ≠ 0 then
    if plan.mtu < 576 || plan.mtu > 9000 then
      .error "Network::SetAddressPlan: invalid MTU"
    else .ok { g with mtu := plan.mtu }
  else .ok g

/-- A row of the OS forwarding table as used by the pinning logic:
interface identifier, optional gateway (none = on-link), metric. -/
structure Route where
  interfaceLuid : Nat
  nextHop : Option String
  metric : Nat
deriving DecidableEq, Repr

/-- OS routing environment seen by one `ConfigureNetwork` invocation:
`bestRouteTo` is the `GetBestRoute2` answer for the server address,
`fallbackDefault` the lowest-metric default route excluding our adapter
(`fallback_default_route_excluding`), and `pinOk` whether the
`add_or_update_host_route_via` install succeeds. -/
structure RouteEnv where
  bestRouteTo : IpVersion → Option Route
  fallbackDefault : IpVersion → Option Route
  pinOk : Bool

/-- One routing/interface mutation performed by the configurator. -/
inductive NetOp where
  | setMtu (ver : IpVersion) (mtu : Nat)
  | addAddr (ver : IpVersion) (addr : String) (plen : Nat)
  | setMetric (ver : IpVersion) (metric : Nat)
  | pinHost (ver : IpVersion) (host : String) (viaLuid : Nat)
      (nextHop : Option String) (metric : Nat)
  | splitDefault (ver : IpVersion) (pfx : String) (plen : Nat) (gw : String)
      (metric : Nat)
deriving DecidableEq, Repr

def isSplitDefault : NetOp → Bool
  | NetOp.splitDefault _ _ _ _ _ => true
  | _ => false

def isPinHost : NetOp → Bool
  | NetOp.pinHost _ _ _ _ _ => true
  | _ => false

/-- `Network::ConfigureNetwork` (`Network.cpp` lines 549-628) for one
family: MTU, unicast address (/22 v4, /64 v6), interface metric 1; then,
when the family matches the server address family, pin the host route via
the best (or fallback-default) route; split-defaults via the VPN peer are
added only when the pin succeeded.  Returns the trace of performed
operations and an error when the pin install threw (in which case the
exception propagates before the split-default block). -/
def ConfigureNetwork (g : AddressPlan) (env : RouteEnv) (server_ip : String)
    (ver : IpVersion) : List NetOp × Option String :=
  let base : List NetOp :=
    match ver with
    | IpVersion.V6 =>
        [NetOp.setMtu IpVersion.V6 g.mtu,
         NetOp.addAddr IpVersion.V6 g.local6 64,
         NetOp.setMetric IpVersion.V6 1]
    | IpVersion.V4 =>
        [NetOp.setMtu IpVersion.V4 g.mtu,
         NetOp.addAddr IpVersion.V4 g.local4 22,
         NetOp.setMetric IpVersion.V4 1]
  let server_is_v6 := is_v6_string server_ip
  let need_pin := ((ver == IpVersion.V6) == server_is_v6)
  if need_pin then
    let best :=
      match env.bestRouteTo ver with
      | some r => some r
      | none => env.fallbackDefault ver
    match best with
    | some r =>
        if env.pinOk then
          let splits : List NetOp :=
            match ver with
            | IpVersion.V6 =>
                [NetOp.splitDefault IpVersion.V6 "::" 1 g.peer6 1,
                 NetOp.splitDefault IpVersion.V6 "8000::" 1 g.peer6 1]
            | IpVersion.V4 =>
                [NetOp.splitDefault IpVersion.V4 "0.0.0.0" 1 g.peer4 1,
                 NetOp.splitDefault IpVersion.V4 "128.0.0.0" 1 g.peer4 1]
          (base ++ NetOp.pinHost ver server_ip r.interfaceLuid r.nextHop 1 :: splits,
           none)
        else (base, some "add_or_update_host_route_via failed")
    | none => (base, none)
  else (base, none)

end Network

/-- `Client.cpp` base validation of the parsed config (lines 339-345):
non-empty server, `port ∈ [1..65535]`, `mtu ∈ [576..9200]`. -/
def configBaseValidationOk (server : String) (port : Int) (mtu : Int) : Bool :=
  !(server == "") && !(port ≤ 0 || port > 65535) && !(mtu < 576 || mtu > 9200)

namespace Network

/-- The three per-family interface operations at the head of every
`ConfigureNetwork` invocation (MTU, unicast address, metric). -/
def baseOps (g : AddressPlan) : IpVersion → List NetOp
  | IpVersion.V6 =>
      [NetOp.setMtu IpVersion.V6 g.mtu,
       NetOp.addAddr IpVersion.V6 g.local6 64,
       NetOp.setMetric IpVersion.V6 1]
  | IpVersion.V4 =>
      [NetOp.setMtu IpVersion.V4 g.mtu,
       NetOp.addAddr IpVersion.V4 g.local4 22,
       NetOp.setMetric IpVersion.V4 1]

/-- The two split-default installs of one family. -/
def splitOps (g : AddressPlan) : IpVersion → List NetOp
  | IpVersion.V6 =>
      [NetOp.splitDefault IpVersion.V6 "::" 1 g.peer6 1,
       NetOp.splitDefault IpVersion.V6 "8000::" 1 g.peer6 1]
  | IpVersion.V4 =>
      [NetOp.splitDefault IpVersion.V4 "0.0.0.0" 1 g.peer4 1,
       NetOp.splitDefault IpVersion.V4 "128.0.0.0" 1 g.peer4 1]

/-- Any op-list decomposition that exhibits a split-default has a
pin-host op strictly earlier in the list. -/
def pinPrecedesSplits (ops : List NetOp) : Prop :=
  ∀ l1 op l2, ops = l1 ++ op :: l2 → isSplitDefault op = true →
    ∃ p ∈ l1, isPinHost p = true

theorem not_split_of_pin (op : NetOp) (h : isPinHost op = true) :
    isSplitDefault op = false := by
  cases op <;> simp_all [isPinHost, isSplitDefault]

theorem baseOps_no_split (g : AddressPlan) (ver : IpVersion) :
    ∀ op ∈ baseOps g ver, isSplitDefault op = false := by
  cases ver <;> intro op hop <;>
    simp only [baseOps, List.mem_cons, List.mem_singleton, List.not_mem_nil,
      or_false] at hop <;>
    rcases hop with h | h | h <;> subst h <;> rfl

theorem pinPrecedesSplits_no_split (ops : List NetOp)
    (h : ∀ op ∈ ops, isSplitDefault op = false) : pinPrecedesSplits ops := by
  intro l1 op l2 hdec hs
  have hmem : op ∈ ops := by
    rw [hdec]; exact List.mem_append_right _ (List.mem_cons_self _ _)
  rw [h op hmem] at hs
  exact absurd hs (by simp)

theorem pinPrecedesSplits_shape (base : List NetOp) (pin : NetOp)
    (splits : List NetOp) (hbase : ∀ op ∈ base, isSplitDefault op = false)
    (hpin : isPinHost pin = true) :
    pinPrecedesSplits (base ++ pin :: splits) := by
  intro l1 op l2 hdec hs
  have h := hdec.symm
  rw [List.append_eq_append_iff] at h
  rcases h with ⟨a, ha1, ha2⟩ | ⟨c, hc1, hc2⟩
  · -- base = l1 ++ a, op :: l2 = a ++ pin :: splits
    cases a with
    | nil =>
        simp only [List.nil_append] at ha2
        have : op = pin := (List.cons.injEq _ _ _ _ ▸ ha2).1
        rw [this, not_split_of_pin pin hpin] at hs
        exact absurd hs (by simp)
    | cons x a' =>
        have hx : op = x := by
          simpa using congrArg (fun l => l.head?) ha2
        have hxbase : x ∈ base := by
          rw [ha1]; exact List.mem_append_right _ (List.mem_cons_self _ _)
        rw [hx, hbase x hxbase] at hs
        exact absurd hs (by simp)
  · -- l1 = base ++ c, pin :: splits = c ++ op :: l2
    cases c with
    | nil =>
        simp only [List.nil_append] at hc2
        have : pin = op := (List.cons.injEq _ _ _ _ ▸ hc2).1
        rw [← this, not_split_of_pin pin hpin] at hs
        exact absurd hs (by simp)
    | cons y c' =>
        have hy : pin = y := by
          simpa using congrArg (fun l => l.head?) hc2
        refine ⟨pin, ?_, hpin⟩
        rw [hc1, hy]
        exact List.mem_append_right _ (List.mem_cons_self _ _)

/-- Structure of a `ConfigureNetwork` trace: either just the base ops, or
base ops followed by the pin and then the split-defaults, the latter only
when the environment yielded a route (best or fallback). -/
theorem configureNetwork_trace_cases (g : AddressPlan) (env : RouteEnv)
    (server_ip : String) (ver : IpVersion) :
    (ConfigureNetwork g env server_ip ver).1 = baseOps g ver
    ∨ ∃ r : Route,
        (env.bestRouteTo ver = some r ∨
          (env.bestRouteTo ver = none ∧ env.fallbackDefault ver = some r)) ∧
        (ConfigureNetwork g env server_ip ver).1 =
          baseOps g ver ++
            NetOp.pinHost ver server_ip r.interfaceLuid r.nextHop 1 ::
              splitOps g ver := by
  unfold ConfigureNetwork
  rcases hnp : ((ver == IpVersion.V6) == is_v6_string server_ip) with _ | _
  · left; cases ver <;> simp_all [baseOps]
  · rcases hbest : env.bestRouteTo ver with _ | r
    · rcases hfb : env.fallbackDefault ver with _ | r
      · left; cases ver <;> simp_all [baseOps]
      · rcases hpin : env.pinOk with _ | _
        · left; cases ver <;> simp_all [baseOps]
        · right
          exact ⟨r, Or.inr ⟨rfl, rfl⟩, by
            cases ver <;> simp_all [baseOps, splitOps]⟩
    · rcases hpin : env.pinOk with _ | _
      · left; cases ver <;> simp_all [baseOps]
      · right
        exact ⟨r, Or.inl rfl, by
          cases ver <;> simp_all [baseOps, splitOps]⟩

end Network

open Network in
/-- C1: in every `ConfigureNetwork` invocation, a split-default install
appears in the operation trace only strictly after the host-route pin to
`server_ip` performed in that same invocation, and if the environment
offers neither a best route nor a fallback default route for the family,
no split-default is installed at all. -/
theorem configureNetwork_split_only_after_pin (g : AddressPlan)
    (env : RouteEnv) (server_ip : String) (ver : IpVersion) :
    pinPrecedesSplits (ConfigureNetwork g env server_ip ver).1
    ∧ ((∃ op ∈ (ConfigureNetwork g env server_ip ver).1,
          isSplitDefault op = true) →
        ∃ luid nh, NetOp.pinHost ver server_ip luid nh 1 ∈
          (ConfigureNetwork g env server_ip ver).1)
    ∧ (env.bestRouteTo ver = none → env.fallbackDefault ver = none →
        ∀ op ∈ (ConfigureNetwork g env server_ip ver).1,
          isSplitDefault op = false) := by
  rcases configureNetwork_trace_cases g env server_ip ver with hb | ⟨r, hr, htr⟩
  · refine ⟨?_, ?_, ?_⟩
    · rw [hb]; exact pinPrecedesSplits_no_split _ (baseOps_no_split g ver)
    · rintro ⟨op, hop, hs⟩
      rw [hb] at hop
      rw [baseOps_no_split g ver op hop] at hs
      exact absurd hs (by simp)
    · intro _ _ op hop
      rw [hb] at hop
      exact baseOps_no_split g ver op hop
  · refine ⟨?_, ?_, ?_⟩
    · rw [htr]
      exact pinPrecedesSplits_shape _ _ _ (baseOps_no_split g ver) rfl
    · intro _
      refine ⟨r.interfaceLuid, r.nextHop, ?_⟩
      rw [htr]
      exact List.mem_append_right _ (List.mem_cons_self _ _)
    · intro hb hf
      rcases hr with hr | ⟨hr1, hr2⟩
      · rw [hb] at hr; exact absurd hr (by simp)
      · rw [hf] at hr2; exact absurd hr2 (by simp)

/-- A routing environment with no route to the server in either family. -/
def envNoRoute : Network.RouteEnv :=
  { bestRouteTo := fun _ => none
    fallbackDefault := fun _ => none
    pinOk := true }

open Network in
/-- Witness for C1 at a concrete input: with no route available, even the
first trace element of the v4 invocation is not a split-default. -/
theorem configureNetwork_split_only_after_pin_witness :
    isSplitDefault (NetOp.setMtu IpVersion.V4 1400) = false :=
  (configureNetwork_split_only_after_pin defaultPlan envNoRoute
      "198.51.100.7" IpVersion.V4).2.2 rfl rfl _ (by
    simp [ConfigureNetwork, envNoRoute, defaultPlan, is_v6_string])

/-- The end-to-end scenario-1 address plan:
`local4=10.200.0.2, peer4=10.200.0.1, local6=fd00::2, peer6=fd00::1,
mtu=1400`. -/
def scenarioPlan : Network.AddressPlan :=
  { local4 := "10.200.0.2"
    peer4 := "10.200.0.1"
    local6 := "fd00::2"
    peer6 := "fd00::1"
    mtu := 1400 }

/-- A benign routing environment: a best route to the server exists on
interface 7 via gateway 192.0.2.1 and the host-route install succeeds. -/
def envWithRoutes : Network.RouteEnv :=
  { bestRouteTo := fun _ =>
      some { interfaceLuid := 7, nextHop := some "192.0.2.1", metric := 25 }
    fallbackDefault := fun _ => none
    pinOk := true }

/-- The routing operations performed by a `Start` with the scenario-1
configuration: `reapply` (`Client.cpp` lines 440-476) runs
`ConfigureNetwork` for V4 and then for V6 against `server=198.51.100.7`. -/
def scenario1Trace (env : Network.RouteEnv) : List Network.NetOp :=
  (Network.ConfigureNetwork scenarioPlan env "198.51.100.7"
      Network.IpVersion.V4).1 ++
  (Network.ConfigureNetwork scenarioPlan env "198.51.100.7"
      Network.IpVersion.V6).1

open Network in
/-- C2 counterexample: with the scenario-1 configuration (v4-only server
198.51.100.7, peer6 fd00::1) neither `::/1 via fd00::1` nor
`8000::/1 via fd00::1` is installed during `Start`, even in an
environment where routes exist and pinning succeeds — the v6 family
never pins (the server address family differs), so the v6 split-defaults
are skipped. -/
theorem scenario1_v6_split_default_absent :
    Network.SetAddressPlan defaultPlan scenarioPlan = Except.ok scenarioPlan
    ∧ NetOp.splitDefault IpVersion.V6 "::" 1 "fd00::1" 1 ∉
        scenario1Trace envWithRoutes
    ∧ NetOp.splitDefault IpVersion.V6 "8000::" 1 "fd00::1" 1 ∉
        scenario1Trace envWithRoutes := by
  decide

open Network in
/-- C2 amended: after a successful scenario-1 `Start`, the v4
split-defaults via 10.200.0.1 are present together with the pinned v4
host route, while the v6 invocation only configures MTU, address and
metric — no v6 pin and no v6 split-default is installed because the
server address is IPv4. -/
theorem scenario1_trace_exact :
    scenario1Trace envWithRoutes =
      [NetOp.setMtu IpVersion.V4 1400,
       NetOp.addAddr IpVersion.V4 "10.200.0.2" 22,
       NetOp.setMetric IpVersion.V4 1,
       NetOp.pinHost IpVersion.V4 "198.51.100.7" 7 (some "192.0.2.1") 1,
       NetOp.splitDefault IpVersion.V4 "0.0.0.0" 1 "10.200.0.1" 1,
       NetOp.splitDefault IpVersion.V4 "128.0.0.0" 1 "10.200.0.1" 1,
       NetOp.setMtu IpVersion.V6 1400,
       NetOp.addAddr IpVersion.V6 "fd00::2" 64,
       NetOp.setMetric IpVersion.V6 1] := by
  decide

/-- C4: the config-level range check (`Client.cpp` line 344) accepts
`mtu = 9200` (and rejects 575 and 9201 as specified), but
`Network::SetAddressPlan` (`Network.cpp` line 664) rejects every
`mtu > 9000`, so `mtu = 9200` passes the config check and then fails
`SetAddressPlan` — the two checks in the code contradict each other on
`(9000, 9200]`. -/
theorem mtu_config_check_vs_setAddressPlan :
    configBaseValidationOk "198.51.100.7" 5555 575 = false
    ∧ configBaseValidationOk "198.51.100.7" 5555 9201 = false
    ∧ configBaseValidationOk "198.51.100.7" 5555 9200 = true
    ∧ Network.SetAddressPlan Network.defaultPlan { scenarioPlan with mtu := 9200 }
        = Except.error "Network::SetAddressPlan: invalid MTU"
    ∧ Network.SetAddressPlan Network.defaultPlan { scenarioPlan with mtu := 9000 }
        = Except.ok { scenarioPlan with mtu := 9000 } := by
  decide

/-! ## DNS override (`src/Core/Client/DNS.cpp`)

The per-interface `NameServer` registry values of the two families are
modelled as an explicit `RegState`; the `DNS` object's snapshot fields
are `DnsState`.  Registry reads/writes always succeed in this model (the
settled claims are about the override logic, not OS failures). -/

namespace DNS

/-- The two per-family `NameServer` registry values under the
interface's GUID (`none` = value absent). -/
structure RegState where
  v4 : Option String
  v6 : Option String
deriving DecidableEq, Repr

/-- The `DNS` object's fields (`DNS.hpp` lines 540-548). -/
structure DnsState where
  applied : Bool
  prev_v4_present : Bool
  prev_v6_present : Bool
  prev_v4 : String
  prev_v6 : String
  touched_v4 : Bool
  touched_v6 : Bool
deriving DecidableEq, Repr

/-- Field initializers of a freshly constructed `DNS` object. -/
def initState : DnsState :=
  { applied := false
    prev_v4_present := false
    prev_v6_present := false
    prev_v4 := ""
    prev_v6 := ""
    touched_v4 := false
    touched_v6 := false }

/-- `DNS::JoinComma`: comma-join without trailing separator. -/
def JoinComma : List String → String
  | [] => ""
  | [a] => a
  | a :: rest => a ++ "," ++ JoinComma rest

/-- `DNS::WriteNameServer` (`DNS.cpp` lines 148-176): an empty value
deletes the registry value, a non-empty value sets it. -/
def WriteNameServer (value : String) : Option String :=
  if value == "" then none else some value

/-- The partition loop of `DNS::Apply` (`DNS.cpp` lines 375-393): each
server string is classified IPv4-first, then IPv6; anything else aborts
with invalid-argument. -/
def partitionServers : List String → Except String (List String × List String)
  | [] => Except.ok ([], [])
  | s :: rest =>
    if IsIPv4 s then
      match partitionServers rest with
      | Except.ok (v4, v6) => Except.ok (s :: v4, v6)
      | Except.error e => Except.error e
    else if IsIPv6 s then
      match partitionServers rest with
      | Except.ok (v4, v6) => Except.ok (v4, s :: v6)
      | Except.error e => Except.error e
    else Except.error ("DNS.Apply: invalid IP address: " ++ s)

/-- `DNS::Apply` (`DNS.cpp` lines 356-415): reset snapshot fields,
reject an empty list, partition (rejecting invalid literals) — both
rejections happen before any registry access — then snapshot the current
`NameServer` values and write each family that has at least one address.
Returns the new registry, the new object state, and the thrown error if
any. -/
def Apply (servers : List String) (reg : RegState) (st : DnsState) :
    RegState × DnsState × Option String :=
  let st := { st with touched_v4 := false, touched_v6 := false,
                      prev_v4_present := false, prev_v6_present := false,
                      prev_v4 := "", prev_v6 := "" }
  if servers.isEmpty then (reg, st, some "DNS.Apply: servers list is empty")
  else
    match partitionServers servers with
    | Except.error e => (reg, st, some e)
    | Except.ok (v4, v6) =>
      let st := { st with
        prev_v4_present := reg.v4.isSome
        prev_v4 := reg.v4.getD ""
        prev_v6_present := reg.v6.isSome
        prev_v6 := reg.v6.getD "" }
      let step4 : RegState × DnsState :=
        if !v4.isEmpty then
          ({ reg with v4 := WriteNameServer (JoinComma v4) },
           { st with touched_v4 := true })
        else (reg, st)
      let reg := step4.1
      let st := step4.2
      let step6 : RegState × DnsState :=
        if !v6.isEmpty then
          ({ reg with v6 := WriteNameServer (JoinComma v6) },
           { st with touched_v6 := true })
        else (reg, st)
      (step6.1, { step6.2 with applied := true }, none)

/-- `DNS::Revert` (`DNS.cpp` lines 417-493): for each touched family,
write the snapshotted value back if it was present (an empty snapshot
value deletes, as `WriteNameServer` does), else delete; untouched
families are not accessed; all object fields are reset. -/
def Revert (reg : RegState) (st : DnsState) : RegState × DnsState :=
  if !st.applied then (reg, st)
  else
    let reg :=
      if st.touched_v4 then
        if st.prev_v4_present then { reg with v4 := WriteNameServer st.prev_v4 }
        else { reg with v4 := none }
      else reg
    let reg :=
      if st.touched_v6 then
        if st.prev_v6_present then { reg with v6 := WriteNameServer st.prev_v6 }
        else { reg with v6 := none }
      else reg
    (reg, initState)

end DNS

theorem partitionServers_error_of_invalid (servers : List String)
    (s : String) (hs : s ∈ servers) (h4 : IsIPv4 s = false)
    (h6 : IsIPv6 s = false) :
    ∃ e, DNS.partitionServers servers = Except.error e := by
  induction servers with
  | nil => exact absurd hs (List.not_mem_nil s)
  | cons t rest ih =>
    rcases List.mem_cons.mp hs with heq | hmem
    · subst heq
      exact ⟨"DNS.Apply: invalid IP address: " ++ s, by
        simp [DNS.partitionServers, h4, h6]⟩
    · by_cases ht4 : IsIPv4 t = true
      · rcases ih hmem with ⟨e, he⟩
        exact ⟨e, by simp [DNS.partitionServers, ht4, he]⟩
      · have ht4f : IsIPv4 t = false := by simpa using ht4
        by_cases ht6 : IsIPv6 t = true
        · rcases ih hmem with ⟨e, he⟩
          exact ⟨e, by simp [DNS.partitionServers, ht4f, ht6, he]⟩
        · have ht6f : IsIPv6 t = false := by simpa using ht6
          exact ⟨"DNS.Apply: invalid IP address: " ++ t, by
            simp [DNS.partitionServers, ht4f, ht6f]⟩

/-- C5: `DNS::Apply` fails on an empty list and on any list containing a
string that is neither a valid IPv4 nor a valid IPv6 literal, and in
every such case it returns before performing any registry write: both
families' `NameServer` values are unchanged. -/
theorem dns_apply_rejects_before_write (servers : List String)
    (reg : DNS.RegState) (st : DNS.DnsState)
    (h : servers = [] ∨ ∃ s ∈ servers, IsIPv4 s = false ∧ IsIPv6 s = false) :
    (DNS.Apply servers reg st).2.2.isSome = true
    ∧ (DNS.Apply servers reg st).1 = reg := by
  rcases h with h | ⟨s, hs, h4, h6⟩
  · subst h; exact ⟨by simp [DNS.Apply], by simp [DNS.Apply]⟩
  · have hne : servers.isEmpty = false := by
      cases servers with
      | nil => exact absurd hs (List.not_mem_nil s)
      | cons a l => rfl
    rcases partitionServers_error_of_invalid servers s hs h4 h6 with ⟨e, he⟩
    exact ⟨by simp [DNS.Apply, hne, he], by simp [DNS.Apply, hne, he]⟩

theorem partitionServers_ok_of_valid (servers : List String)
    (hval : ∀ s ∈ servers, IsIPv4 s = true ∨ IsIPv6 s = true) :
    DNS.partitionServers servers =
      Except.ok (servers.filter (fun s => IsIPv4 s),
        servers.filter (fun s => !IsIPv4 s && IsIPv6 s)) := by
  induction servers with
  | nil => rfl
  | cons t rest ih =>
    have ihr := ih (fun s hs => hval s (List.mem_cons_of_mem t hs))
    rcases hval t (List.mem_cons_self t rest) with h4 | h6
    · simp [DNS.partitionServers, h4, ihr, List.filter]
    · by_cases h4 : IsIPv4 t = true
      · simp [DNS.partitionServers, h4, ihr, List.filter]
      · have h4f : IsIPv4 t = false := by simpa using h4
        simp [DNS.partitionServers, h4f, h6, ihr, List.filter]

theorem ne_empty_of_IsIPv4 (s : String) (h : IsIPv4 s = true) : s ≠ "" := by
  intro he; subst he; exact absurd h (by decide)

theorem ne_empty_of_IsIPv6 (s : String) (h : IsIPv6 s = true) : s ≠ "" := by
  intro he; subst he; exact absurd h (by decide)

theorem joinComma_ne_empty (a : String) (l : List String) (ha : a ≠ "") :
    DNS.JoinComma (a :: l) ≠ "" := by
  cases l with
  | nil => simpa [DNS.JoinComma] using ha
  | cons b r =>
    intro h
    have hlen := congrArg String.length h
    have hcomma : ("," : String).length = 1 := rfl
    have hnil : ("" : String).length = 0 := rfl
    simp only [DNS.JoinComma, String.length_append, hcomma, hnil] at hlen
    omega

/-- Execution of a successful `DNS::Apply` in terms of the two partition
results: no error, each family written iff its partition is non-empty,
and the object state snapshots the pre-call registry. -/
theorem dns_apply_ok_structure (servers : List String) (reg : DNS.RegState)
    (st : DNS.DnsState) (f4 f6 : List String)
    (hne : servers.isEmpty = false)
    (hp : DNS.partitionServers servers = Except.ok (f4, f6)) :
    (DNS.Apply servers reg st).2.2 = none
    ∧ (DNS.Apply servers reg st).1.v4 =
        (if f4.isEmpty then reg.v4 else DNS.WriteNameServer (DNS.JoinComma f4))
    ∧ (DNS.Apply servers reg st).1.v6 =
        (if f6.isEmpty then reg.v6 else DNS.WriteNameServer (DNS.JoinComma f6))
    ∧ (DNS.Apply servers reg st).2.1 =
        { applied := true
          prev_v4_present := reg.v4.isSome
          prev_v6_present := reg.v6.isSome
          prev_v4 := reg.v4.getD ""
          prev_v6 := reg.v6.getD ""
          touched_v4 := !f4.isEmpty
          touched_v6 := !f6.isEmpty } := by
  rcases h4 : f4.isEmpty with _ | _ <;> rcases h6 : f6.isEmpty with _ | _ <;>
    simp_all [DNS.Apply, hne, hp]

open DNS in
/-- C6: for a non-empty list of valid literals, `DNS::Apply` succeeds and
writes a family's `NameServer` value iff the list contains at least one
address of that family (to the comma-join of that family's addresses);
a family with no addresses is left untouched by `Apply` and is also not
modified by the subsequent `Revert`. -/
theorem dns_apply_writes_iff_family (servers : List String)
    (reg : DNS.RegState) (st : DNS.DnsState) (hne : servers ≠ [])
    (hval : ∀ s ∈ servers, IsIPv4 s = true ∨ IsIPv6 s = true) :
    (DNS.Apply servers reg st).2.2 = none
    ∧ ((∃ s ∈ servers, IsIPv4 s = true) →
        (DNS.Apply servers reg st).1.v4 =
          some (DNS.JoinComma (servers.filter (fun s => IsIPv4 s))))
    ∧ ((∀ s ∈ servers, IsIPv4 s = false) →
        (DNS.Apply servers reg st).1.v4 = reg.v4
        ∧ (DNS.Revert (DNS.Apply servers reg st).1
            (DNS.Apply servers reg st).2.1).1.v4 = reg.v4)
    ∧ ((∃ s ∈ servers, IsIPv4 s = false ∧ IsIPv6 s = true) →
        (DNS.Apply servers reg st).1.v6 =
          some (DNS.JoinComma (servers.filter (fun s => !IsIPv4 s && IsIPv6 s))))
    ∧ ((∀ s ∈ servers, IsIPv4 s = true ∨ IsIPv6 s = false) →
        (DNS.Apply servers reg st).1.v6 = reg.v6
        ∧ (DNS.Revert (DNS.Apply servers reg st).1
            (DNS.Apply servers reg st).2.1).1.v6 = reg.v6) := by
  have hb : servers.isEmpty = false := by
    cases servers with
    | nil => exact absurd rfl hne
    | cons a l => rfl
  have hp := partitionServers_ok_of_valid servers hval
  obtain ⟨herr, hv4, hv6, hst⟩ :=
    dns_apply_ok_structure servers reg st _ _ hb hp
  refine ⟨herr, ?_, ?_, ?_, ?_⟩
  · rintro ⟨s, hs, hs4⟩
    have hmem : s ∈ servers.filter (fun s => IsIPv4 s) :=
      List.mem_filter.mpr ⟨hs, hs4⟩
    rcases hf : servers.filter (fun s => IsIPv4 s) with _ | ⟨a, l⟩
    · rw [hf] at hmem; exact absurd hmem (List.not_mem_nil s)
    · have ha4 : IsIPv4 a = true :=
        (List.mem_filter.mp (hf ▸ List.mem_cons_self a l)).2
      have hjoin : DNS.JoinComma (a :: l) ≠ "" :=
        joinComma_ne_empty a l (ne_empty_of_IsIPv4 a ha4)
      rw [hv4, hf]
      simp [DNS.WriteNameServer, List.isEmpty_cons, hjoin]
  · intro hall
    have hf : servers.filter (fun s => IsIPv4 s) = [] :=
      List.filter_eq_nil_iff.mpr (fun a ha => by simp [hall a ha])
    have htch : (DNS.Apply servers reg st).2.1.touched_v4 = false := by
      rw [hst]; simp [hf]
    have hv4eq : (DNS.Apply servers reg st).1.v4 = reg.v4 := by
      rw [hv4, hf]; simp
    refine ⟨hv4eq, ?_⟩
    unfold DNS.Revert
    rcases happ : (DNS.Apply servers reg st).2.1.applied with _ | _
    · simp [happ, hv4eq]
    · simp only [happ, Bool.not_true, Bool.false_eq_true, if_false]
      rcases h6t : (DNS.Apply servers reg st).2.1.touched_v6 with _ | _ <;>
        rcases h6p : (DNS.Apply servers reg st).2.1.prev_v6_present with _ | _ <;>
        simp [htch, h6t, h6p, hv4eq]
  · rintro ⟨s, hs, hs4, hs6⟩
    have hmem : s ∈ servers.filter (fun s => !IsIPv4 s && IsIPv6 s) :=
      List.mem_filter.mpr ⟨hs, by simp [hs4, hs6]⟩
    rcases hf : servers.filter (fun s => !IsIPv4 s && IsIPv6 s) with _ | ⟨a, l⟩
    · rw [hf] at hmem; exact absurd hmem (List.not_mem_nil s)
    · have ha6 : IsIPv6 a = true := by
        have := (List.mem_filter.mp (hf ▸ List.mem_cons_self a l)).2
        simp only [Bool.and_eq_true] at this
        exact this.2
      have hjoin : DNS.JoinComma (a :: l) ≠ "" :=
        joinComma_ne_empty a l (ne_empty_of_IsIPv6 a ha6)
      rw [hv6, hf]
      simp [DNS.WriteNameServer, List.isEmpty_cons, hjoin]
  · intro hall
    have hf : servers.filter (fun s => !IsIPv4 s && IsIPv6 s) = [] :=
      List.filter_eq_nil_iff.mpr (fun a ha => by
        rcases hall a ha with h | h <;> simp [h])
    have htch : (DNS.Apply servers reg st).2.1.touched_v6 = false := by
      rw [hst]; simp [hf]
    have hv6eq : (DNS.Apply servers reg st).1.v6 = reg.v6 := by
      rw [hv6, hf]; simp
    refine ⟨hv6eq, ?_⟩
    unfold DNS.Revert
    rcases happ : (DNS.Apply servers reg st).2.1.applied with _ | _
    · simp [happ, hv6eq]
    · simp only [happ, Bool.not_true, Bool.false_eq_true, if_false]
      rcases h4t : (DNS.Apply servers reg st).2.1.touched_v4 with _ | _ <;>
        rcases h4p : (DNS.Apply servers reg st).2.1.prev_v4_present with _ | _ <;>
        simp [htch, h4t, h4p, hv6eq]

/-- Witness for C6 at a concrete input: a v4-only server list writes the
v4 `NameServer` to the comma-join and leaves the v6 value untouched. -/
theorem dns_apply_writes_iff_family_witness :
    (DNS.Apply ["10.200.0.1", "1.1.1.1"]
        { v4 := some "192.0.2.53", v6 := some "2001:db8::53" }
        DNS.initState).1.v4 = some "10.200.0.1,1.1.1.1"
    ∧ (DNS.Apply ["10.200.0.1", "1.1.1.1"]
        { v4 := some "192.0.2.53", v6 := some "2001:db8::53" }
        DNS.initState).1.v6 = some "2001:db8::53" := by
  have h := dns_apply_writes_iff_family ["10.200.0.1", "1.1.1.1"]
    { v4 := some "192.0.2.53", v6 := some "2001:db8::53" } DNS.initState
    (by decide) (by decide)
  refine ⟨?_, (h.2.2.2.2 (by decide)).1⟩
  have h2 := h.2.1 ⟨"10.200.0.1", by decide, by decide⟩
  rw [h2]; decide

theorem writeNameServer_ne_some_empty (x : String) :
    DNS.WriteNameServer x ≠ some "" := by
  intro h
  unfold DNS.WriteNameServer at h
  by_cases hx : x = ""
  · simp [hx] at h
  · rw [if_neg (by simpa using hx)] at h
    exact hx (by simpa using h)

theorem regState_ext (x y : DNS.RegState) (h4 : x.v4 = y.v4)
    (h6 : x.v6 = y.v6) : x = y := by
  cases x; cases y; simp_all

/-- A present `NameServer` value is never the empty string after `Apply`
(the code's `ReadNameServer` rejects empty values and `WriteNameServer`
never writes one). -/
theorem dns_apply_v4_wf (servers : List String) (reg : DNS.RegState)
    (st : DNS.DnsState) (h : reg.v4 ≠ some "") :
    (DNS.Apply servers reg st).1.v4 ≠ some "" := by
  unfold DNS.Apply
  rcases he : servers.isEmpty with _ | _
  · rcases hp : DNS.partitionServers servers with e | ⟨f4, f6⟩
    · simpa [hp] using h
    · rcases h4 : f4.isEmpty with _ | _ <;> rcases h6 : f6.isEmpty with _ | _ <;>
        simp_all [writeNameServer_ne_some_empty]
  · simpa using h

theorem dns_apply_v6_wf (servers : List String) (reg : DNS.RegState)
    (st : DNS.DnsState) (h : reg.v6 ≠ some "") :
    (DNS.Apply servers reg st).1.v6 ≠ some "" := by
  unfold DNS.Apply
  rcases he : servers.isEmpty with _ | _
  · rcases hp : DNS.partitionServers servers with e | ⟨f4, f6⟩
    · simpa [hp] using h
    · rcases h4 : f4.isEmpty with _ | _ <;> rcases h6 : f6.isEmpty with _ | _ <;>
        simp_all [writeNameServer_ne_some_empty]
  · simpa using h

open DNS in
/-- C10: a second `DNS::Apply` without an intervening `Revert` discards
the first call's snapshot at entry and re-captures the snapshot from the
current registry — the values left by the first `Apply` — so the
subsequent `Revert` restores the registry exactly as the first `Apply`
left it, not the pre-first-`Apply` baseline.  (The well-formedness
hypotheses state that a present registry value is non-empty, which the
code's `ReadNameServer` enforces by rejecting empty values.) -/
theorem dns_second_apply_recaptures (L1 L2 : List String)
    (reg : DNS.RegState) (hwf4 : reg.v4 ≠ some "") (hwf6 : reg.v6 ≠ some "")
    (h2ok : (DNS.Apply L2 (DNS.Apply L1 reg DNS.initState).1
        (DNS.Apply L1 reg DNS.initState).2.1).2.2 = none) :
    (DNS.Revert
        (DNS.Apply L2 (DNS.Apply L1 reg DNS.initState).1
          (DNS.Apply L1 reg DNS.initState).2.1).1
        (DNS.Apply L2 (DNS.Apply L1 reg DNS.initState).1
          (DNS.Apply L1 reg DNS.initState).2.1).2.1).1
      = (DNS.Apply L1 reg DNS.initState).1
    ∧ (DNS.Apply L2 (DNS.Apply L1 reg DNS.initState).1
        (DNS.Apply L1 reg DNS.initState).2.1).2.1.prev_v4_present
      = (DNS.Apply L1 reg DNS.initState).1.v4.isSome
    ∧ (DNS.Apply L2 (DNS.Apply L1 reg DNS.initState).1
        (DNS.Apply L1 reg DNS.initState).2.1).2.1.prev_v4
      = (DNS.Apply L1 reg DNS.initState).1.v4.getD ""
    ∧ (DNS.Apply L2 (DNS.Apply L1 reg DNS.initState).1
        (DNS.Apply L1 reg DNS.initState).2.1).2.1.prev_v6_present
      = (DNS.Apply L1 reg DNS.initState).1.v6.isSome
    ∧ (DNS.Apply L2 (DNS.Apply L1 reg DNS.initState).1
        (DNS.Apply L1 reg DNS.initState).2.1).2.1.prev_v6
      = (DNS.Apply L1 reg DNS.initState).1.v6.getD "" := by
  have hr1wf4 : (DNS.Apply L1 reg DNS.initState).1.v4 ≠ some "" :=
    dns_apply_v4_wf L1 reg DNS.initState hwf4
  have hr1wf6 : (DNS.Apply L1 reg DNS.initState).1.v6 ≠ some "" :=
    dns_apply_v6_wf L1 reg DNS.initState hwf6
  rcases hb : L2.isEmpty with _ | _
  case true => simp [DNS.Apply, hb] at h2ok
  rcases hp : DNS.partitionServers L2 with e | ⟨f4, f6⟩
  case error => simp [DNS.Apply, hb, hp] at h2ok
  obtain ⟨-, hv4, hv6, hst⟩ :=
    dns_apply_ok_structure L2 (DNS.Apply L1 reg DNS.initState).1
      (DNS.Apply L1 reg DNS.initState).2.1 f4 f6 hb hp
  refine ⟨?_, by rw [hst], by rw [hst], by rw [hst], by rw [hst]⟩
  apply regState_ext
  · -- v4 component
    rw [DNS.Revert, hst]
    rcases h4 : f4.isEmpty with _ | _ <;>
      rcases ho4 : (DNS.Apply L1 reg DNS.initState).1.v4 with _ | v <;>
      rcases h6 : f6.isEmpty with _ | _ <;>
      rcases ho6 : (DNS.Apply L1 reg DNS.initState).1.v6 with _ | w <;>
      simp_all [DNS.WriteNameServer]
  · -- v6 component
    rw [DNS.Revert, hst]
    rcases h4 : f4.isEmpty with _ | _ <;>
      rcases ho4 : (DNS.Apply L1 reg DNS.initState).1.v4 with _ | v <;>
      rcases h6 : f6.isEmpty with _ | _ <;>
      rcases ho6 : (DNS.Apply L1 reg DNS.initState).1.v6 with _ | w <;>
      simp_all [DNS.WriteNameServer]

/-- Witness for C10 at concrete inputs: after
`Apply ["9.9.9.9"]; Apply ["1.1.1.1","fd00::53"]; Revert`, the registry
equals the state left by the first `Apply`. -/
theorem dns_second_apply_recaptures_witness :
    (DNS.Revert
        (DNS.Apply ["1.1.1.1", "fd00::53"]
          (DNS.Apply ["9.9.9.9"] { v4 := none, v6 := some "2001:db8::1" }
            DNS.initState).1
          (DNS.Apply ["9.9.9.9"] { v4 := none, v6 := some "2001:db8::1" }
            DNS.initState).2.1).1
        (DNS.Apply ["1.1.1.1", "fd00::53"]
          (DNS.Apply ["9.9.9.9"] { v4 := none, v6 := some "2001:db8::1" }
            DNS.initState).1
          (DNS.Apply ["9.9.9.9"] { v4 := none, v6 := some "2001:db8::1" }
            DNS.initState).2.1).2.1).1
      = (DNS.Apply ["9.9.9.9"] { v4 := none, v6 := some "2001:db8::1" }
          DNS.initState).1 :=
  (dns_second_apply_recaptures ["9.9.9.9"] ["1.1.1.1", "fd00::53"]
    { v4 := none, v6 := some "2001:db8::1" }
    (by decide) (by decide) (by decide)).1

/-! ## Firewall rules (`src/Core/Client/FirewallRules.cpp`)

The OS firewall is a list of rules; COM failures are explicit boolean
oracles (`addOk` for rule creation, per-entry `StepOracle` for the two
revert sub-steps).  `rulePfx` models the source field `rule_prefix`. -/

namespace FirewallRules

inductive Protocol where
  | TCP
  | UDP
deriving DecidableEq, Repr

/-- `FirewallRules::ClientRule`. -/
structure ClientRule where
  rulePfx : String
  app_path : String
  server_ip : String
deriving DecidableEq, Repr

/-- `FirewallRules::RuleSnapshot`: a `present` bit plus the eleven
snapshotted rule fields. -/
structure RuleSnapshot where
  present : Bool
  name : String
  description : String
  direction : Nat
  action : Nat
  enabled : Bool
  profiles : Nat
  interface_types : String
  protocol : Nat
  remote_addresses : String
  remote_ports : String
  application_name : String
deriving DecidableEq, Repr

/-- A rule as stored by the OS firewall (same eleven fields). -/
structure FwRule where
  name : String
  description : String
  direction : Nat
  action : Nat
  enabled : Bool
  profiles : Nat
  interface_types : String
  protocol : Nat
  remote_addresses : String
  remote_ports : String
  application_name : String
deriving DecidableEq, Repr

/-- `FirewallRules::Entry`. -/
structure Entry where
  proto : Protocol
  port : Nat
  name : String
  snapshot : RuleSnapshot
  had_before : Bool
  touched : Bool
deriving DecidableEq, Repr

/-- The `FirewallRules` object: configuration, recorded entries in
insertion order, and the `applied_` flag. -/
structure FwState where
  cfg : ClientRule
  entries : List Entry
  applied : Bool
deriving DecidableEq, Repr

def NET_FW_RULE_DIR_OUT : Nat := 2
def NET_FW_ACTION_ALLOW : Nat := 1
def NET_FW_PROFILE2_ALL : Nat := 2147483647
def NET_FW_IP_PROTOCOL_TCP : Nat := 6
def NET_FW_IP_PROTOCOL_UDP : Nat := 17

/-- `INetFwRules::Item`: look a rule up by name. -/
def findRule (os : List FwRule) (name : String) : Option FwRule :=
  os.find? (fun r => r.name == name)

/-- `FirewallRules::RemoveIfExists`: delete the rule(s) with the given
name (no-op when absent). -/
def RemoveIfExists (os : List FwRule) (name : String) : List FwRule :=
  os.filter (fun r => !(r.name == name))

/-- `FirewallRules::ValidateConfig` (throws on any empty field). -/
def ValidateConfigOk (cfg : ClientRule) : Bool :=
  !(cfg.rulePfx == "") && !(cfg.app_path == "") && !(cfg.server_ip == "")

/-- `FirewallRules::MakeRuleName`:
`"<prefix> Out <TCP|UDP> to <remote_addresses>:<port>"`. -/
def MakeRuleName (cfg : ClientRule) (proto : Protocol) (port : Nat) : String :=
  cfg.rulePfx ++ (if proto == Protocol.TCP then " Out TCP to " else " Out UDP to ")
    ++ cfg.server_ip ++ ":" ++ toString port

/-- `FirewallRules::ReadSnapshot`: snapshot the OS rule with the given
name; `present := false` (with default-initialized fields as in the
`RuleSnapshot` declaration) when absent. -/
def ReadSnapshot (os : List FwRule) (name : String) : RuleSnapshot :=
  match findRule os name with
  | none =>
      { present := false, name := "", description := "", direction := 0,
        action := 0, enabled := true, profiles := 0, interface_types := "",
        protocol := 0, remote_addresses := "", remote_ports := "",
        application_name := "" }
  | some r =>
      { present := true, name := r.name, description := r.description,
        direction := r.direction, action := r.action, enabled := r.enabled,
        profiles := r.profiles, interface_types := r.interface_types,
        protocol := r.protocol, remote_addresses := r.remote_addresses,
        remote_ports := r.remote_ports,
        application_name := r.application_name }

/-- The rule object built by `FirewallRules::UpsertOutbound`: outbound,
allow, enabled, all profiles, interface types "All", caller-supplied
remote addresses, the port, the executable path. -/
def outboundRule (cfg : ClientRule) (proto : Protocol) (port : Nat)
    (name : String) : FwRule :=
  { name := name
    description := "VPN client outbound allow"
    direction := NET_FW_RULE_DIR_OUT
    action := NET_FW_ACTION_ALLOW
    enabled := true
    profiles := NET_FW_PROFILE2_ALL
    interface_types := "All"
    protocol := if proto == Protocol.TCP then NET_FW_IP_PROTOCOL_TCP
                else NET_FW_IP_PROTOCOL_UDP
    remote_addresses := cfg.server_ip
    remote_ports := toString port
    application_name := cfg.app_path }

/-- `FirewallRules::UpsertOutbound`: delete-if-exists, then add; `addOk`
is the success of `INetFwRules::Add`.  On failure the removal has
already happened. -/
def UpsertOutbound (os : List FwRule) (cfg : ClientRule) (proto : Protocol)
    (port : Nat) (name : String) (addOk : Bool) : List FwRule × Bool :=
  let os := RemoveIfExists os name
  if addOk then (os ++ [outboundRule cfg proto port name], true)
  else (os, false)

/-- The rule re-created by `FirewallRules::RestoreFromSnapshot`: all
eleven fields copied from the snapshot. -/
def snapshotRule (s : RuleSnapshot) : FwRule :=
  { name := s.name
    description := s.description
    direction := s.direction
    action := s.action
    enabled := s.enabled
    profiles := s.profiles
    interface_types := s.interface_types
    protocol := s.protocol
    remote_addresses := s.remote_addresses
    remote_ports := s.remote_ports
    application_name := s.application_name }

/-- `FirewallRules::RestoreFromSnapshot`: no-op when the snapshot was
not present; otherwise delete-if-exists then add the snapshotted rule
(`addOk` = success of `INetFwRules::Add`). -/
def RestoreFromSnapshot (os : List FwRule) (s : RuleSnapshot)
    (addOk : Bool) : List FwRule × Bool :=
  if !s.present then (os, true)
  else
    let os := RemoveIfExists os s.name
    if addOk then (os ++ [snapshotRule s], true) else (os, false)

/-- `FirewallRules::Allow` (`FirewallRules.cpp` lines 422-470): validate
config and port, return success immediately when an entry with the same
`(protocol, port)` key exists, else snapshot, upsert (oracle `addOk`) and
append the entry. -/
def Allow (st : FwState) (os : List FwRule) (proto : Protocol) (port : Nat)
    (addOk : Bool) : FwState × List FwRule × Option String :=
  if !(ValidateConfigOk st.cfg) then (st, os, some "FirewallRules: invalid config")
  else if port == 0 then (st, os, some "FirewallRules::Allow: port is zero")
  else if st.entries.any (fun e => e.proto == proto && e.port == port) then
    (st, os, none)
  else
    let name := MakeRuleName st.cfg proto port
    let snap := ReadSnapshot os name
    let up := UpsertOutbound os st.cfg proto port name addOk
    if up.2 then
      ({ st with
          entries := st.entries ++
            [{ proto := proto, port := port, name := name, snapshot := snap,
               had_before := snap.present, touched := true }]
          applied := true },
       up.1, none)
    else (st, up.1, some "INetFwRules::Add failed")

/-- Success/failure oracle for the two revert sub-steps of one entry. -/
structure StepOracle where
  removeOk : Bool
  restoreOk : Bool
deriving DecidableEq, Repr

def defaultOracle : StepOracle :=
  { removeOk := true, restoreOk := true }

/-- One loop iteration of `FirewallRules::Revert`: try to remove the
installed rule (when `touched`), then try to restore the snapshot (when
`had_before`); each sub-step failure is recorded without stopping. -/
def revertEntry (os : List FwRule) (e : Entry) (orc : StepOracle) :
    List FwRule × Bool :=
  let step1 : List FwRule × Bool :=
    if e.touched then
      if orc.removeOk then (RemoveIfExists os e.name, false)
      else (os, true)
    else (os, false)
  let step2 : List FwRule × Bool :=
    if e.had_before then
      let r := RestoreFromSnapshot step1.1 e.snapshot orc.restoreOk
      (r.1, !r.2)
    else (step1.1, false)
  (step2.1, step1.2 || step2.2)

/-- The revert loop over a list of entries (already reversed by the
caller), with one oracle per entry; returns the OS state, the aggregate
error flag, and the processed entry names in order. -/
def revertLoop : List FwRule → List Entry → List StepOracle →
    List FwRule × Bool × List String
  | os, [], _ => (os, false, [])
  | os, e :: rest, orcs =>
    let orc := orcs.headD defaultOracle
    let r1 := revertEntry os e orc
    let r2 := revertLoop r1.1 rest orcs.tail
    (r2.1, r1.2 || r2.2.1, e.name :: r2.2.2)

/-- `FirewallRules::Revert` (`FirewallRules.cpp` lines 472-526): no-op
unless `applied_`; otherwise process the entries in reverse insertion
order, clear them, and throw at the end iff any sub-step failed. -/
def Revert (st : FwState) (os : List FwRule) (orcs : List StepOracle) :
    FwState × List FwRule × Option String × List String :=
  if !st.applied then (st, os, none, [])
  else
    let r := revertLoop os st.entries.reverse orcs
    ({ st with entries := [], applied := false },
     r.1,
     (if r.2.1 then some "FirewallRules::Revert: one or more operations failed"
      else none),
     r.2.2)

/-- Whether one entry contributes a failed sub-step under the given
oracle: a failed removal of a touched rule, or a failed re-add of a
present snapshot. -/
def entryStepFailed (e : Entry) (orc : StepOracle) : Bool :=
  (e.touched && !orc.removeOk) ||
  (e.had_before && e.snapshot.present && !orc.restoreOk)

end FirewallRules

/-! `Client.cpp` pieces feeding the firewall configuration. -/

/-- `Client.cpp strip_brackets`. -/
def strip_brackets (s : String) : String :=
  if s ≠ "" && (s.front == '[') && (s.back == ']') then
    (s.drop 1).dropRight 1
  else s

/-- `Client.cpp ResolveFirewallAddressesW`: resolution outcomes are an
explicit parameter (the sorted unique address list produced from
`getaddrinfo`); when resolution fails or yields nothing the literal
(bracket-stripped) host is used.  The loop assigns instead of appending
(`out = *it`), so only the last resolved address survives. -/
def ResolveFirewallAddresses (host : String) (resolved : List String) :
    String :=
  let h := strip_brackets host
  if resolved.isEmpty then h
  else resolved.getLastD h

/-- The single firewall installation performed by `ClientMain`
(`Client.cpp` lines 368-378): prefix `FlowForge`, the resolved server
addresses, and one `Allow(TCP, port)` call against a firewall with no
colliding rule. -/
def clientStartFirewall (server : String) (resolved : List String)
    (app_path : String) (port : Nat) :
    FirewallRules.FwState × List FirewallRules.FwRule × Option String :=
  let fw_addrs := ResolveFirewallAddresses server resolved
  let cfg : FirewallRules.ClientRule :=
    { rulePfx := "FlowForge", app_path := app_path, server_ip := fw_addrs }
  FirewallRules.Allow { cfg := cfg, entries := [], applied := false } []
    FirewallRules.Protocol.TCP port true

/-- The in-memory entries list holds at most one record per
`(protocol, port)` key. -/
def keyUnique (entries : List FirewallRules.Entry) : Prop :=
  List.Pairwise (fun a b => ¬(a.proto = b.proto ∧ a.port = b.port)) entries

/-- Run a sequence of `Allow` calls, each `(protocol, port, addOk)`. -/
def runAllows : FirewallRules.FwState → List FirewallRules.FwRule →
    List (FirewallRules.Protocol × Nat × Bool) →
    FirewallRules.FwState × List FirewallRules.FwRule
  | st, os, [] => (st, os)
  | st, os, (p, n, ok) :: rest =>
    let r := FirewallRules.Allow st os p n ok
    runAllows r.1 r.2.1 rest

theorem allow_preserves_keyUnique (st : FirewallRules.FwState)
    (os : List FirewallRules.FwRule) (proto : FirewallRules.Protocol)
    (port : Nat) (addOk : Bool) (h : keyUnique st.entries) :
    keyUnique (FirewallRules.Allow st os proto port addOk).1.entries := by
  rcases hv : FirewallRules.ValidateConfigOk st.cfg with _ | _
  · simpa [FirewallRules.Allow, hv] using h
  · rcases hp : (port == 0) with _ | _
    · rcases hany : st.entries.any
          (fun e => e.proto == proto && e.port == port) with _ | _
      · rcases hup : (FirewallRules.UpsertOutbound os st.cfg proto port
            (FirewallRules.MakeRuleName st.cfg proto port) addOk).2 with _ | _
        · simpa [FirewallRules.Allow, hv, hp, hany, hup] using h
        · simp only [FirewallRules.Allow, hv, hp, hany, hup, Bool.not_true,
            Bool.false_eq_true, eq_self_iff_true, if_false, if_true]
          rw [keyUnique, List.pairwise_append]
          refine ⟨h, List.pairwise_singleton _ _, ?_⟩
          intro a ha b hb
          have hb' : b = _ := List.mem_singleton.mp hb
          subst hb'
          intro hab
          have hanyp : ∀ x ∈ st.entries, x.proto = proto → ¬ x.port = port := by
            simpa using hany
          exact hanyp a ha (by simpa using hab.1) (by simpa using hab.2)
      · simpa [FirewallRules.Allow, hv, hp, hany] using h
    · simpa [FirewallRules.Allow, hv, hp] using h

open FirewallRules in
/-- C7: `Allow` is idempotent per `(protocol, port)` key — a second call
with an already-recorded key returns success touching neither the object
state (no snapshot) nor the OS firewall (no delete, no create) — and
after any sequence of `Allow` calls starting from a fresh object the
entries list holds at most one record per key. -/
theorem fw_allow_idempotent_and_key_unique :
    (∀ (st : FwState) (os : List FwRule) (proto : Protocol) (port : Nat)
        (addOk : Bool),
      ValidateConfigOk st.cfg = true → (port == 0) = false →
      (∃ e ∈ st.entries, e.proto = proto ∧ e.port = port) →
      Allow st os proto port addOk = (st, os, none))
    ∧ ∀ (cfg : ClientRule) (os0 : List FwRule)
        (calls : List (Protocol × Nat × Bool)),
        keyUnique (runAllows { cfg := cfg, entries := [], applied := false }
          os0 calls).1.entries := by
  constructor
  · rintro st os proto port addOk hv hp ⟨e, he, he1, he2⟩
    have hany : st.entries.any (fun e => e.proto == proto && e.port == port)
        = true :=
      List.any_eq_true.mpr ⟨e, he, by simp [he1, he2]⟩
    simp [FirewallRules.Allow, hv, hp, hany]
  · intro cfg os0 calls
    have hrun : ∀ (cs : List (Protocol × Nat × Bool)) (st : FwState)
        (os : List FwRule), keyUnique st.entries →
        keyUnique (runAllows st os cs).1.entries := by
      intro cs
      induction cs with
      | nil => intro st os h; simpa [runAllows] using h
      | cons c rest ih =>
        intro st os h
        rcases c with ⟨p, n, ok⟩
        simpa [runAllows] using
          ih _ _ (allow_preserves_keyUnique st os p n ok h)
    exact hrun calls _ os0 (by simp [keyUnique])

/-- A sample recorded entry with key `(TCP, 5555)`. -/
def sampleEntry : FirewallRules.Entry :=
  { proto := FirewallRules.Protocol.TCP
    port := 5555
    name := "FlowForge Out TCP to 198.51.100.7:5555"
    snapshot :=
      { present := false, name := "", description := "", direction := 0,
        action := 0, enabled := true, profiles := 0, interface_types := "",
        protocol := 0, remote_addresses := "", remote_ports := "",
        application_name := "" }
    had_before := false
    touched := true }

/-- A sample `FirewallRules` state that already recorded `sampleEntry`. -/
def sampleFwState : FirewallRules.FwState :=
  { cfg := { rulePfx := "FlowForge", app_path := "flowforge.exe",
             server_ip := "198.51.100.7" }
    entries := [sampleEntry]
    applied := true }

open FirewallRules in
/-- Witness for C7: a second `Allow(TCP, 5555)` on a state that already
holds that key is a complete no-op returning success. -/
theorem fw_allow_idempotent_witness :
    Allow sampleFwState [] Protocol.TCP 5555 true = (sampleFwState, [], none) :=
  fw_allow_idempotent_and_key_unique.1 sampleFwState [] Protocol.TCP 5555 true
    (by decide) (by decide)
    ⟨sampleEntry, List.mem_singleton.mpr rfl, rfl, rfl⟩

open FirewallRules in
/-- C9 counterexample: the one firewall rule installed by a scenario-1
`Start` is named `"FlowForge Out TCP to 198.51.100.7:5555"` — the claimed
UDP name is not installed (`ClientMain` calls `Allow(TCP, port)`). -/
theorem scenario1_firewall_rule_not_udp :
    (clientStartFirewall "198.51.100.7" ["198.51.100.7"] "flowforge.exe"
        5555).1.entries.map (fun e => e.name)
      = ["FlowForge Out TCP to 198.51.100.7:5555"]
    ∧ "FlowForge Out UDP to 198.51.100.7:5555" ∉
        (clientStartFirewall "198.51.100.7" ["198.51.100.7"] "flowforge.exe"
          5555).1.entries.map (fun e => e.name) := by
  decide

open FirewallRules in
/-- C9 amended: a successful scenario-1 `Start` installs exactly one new
firewall rule, a TCP rule named
`"FlowForge Out TCP to 198.51.100.7:5555"` (protocol 6 = TCP). -/
theorem scenario1_firewall_rule_amended :
    (clientStartFirewall "198.51.100.7" ["198.51.100.7"] "flowforge.exe"
        5555).1.entries.map (fun e => (e.proto, e.name))
      = [(Protocol.TCP, "FlowForge Out TCP to 198.51.100.7:5555")]
    ∧ (clientStartFirewall "198.51.100.7" ["198.51.100.7"] "flowforge.exe"
        5555).2.1.map (fun r => (r.name, r.protocol))
      = [("FlowForge Out TCP to 198.51.100.7:5555", 6)]
    ∧ (clientStartFirewall "198.51.100.7" ["198.51.100.7"] "flowforge.exe"
        5555).2.2 = none := by
  decide

theorem revertEntry_err_eq (os : List FirewallRules.FwRule)
    (e : FirewallRules.Entry) (orc : FirewallRules.StepOracle) :
    (FirewallRules.revertEntry os e orc).2 =
      FirewallRules.entryStepFailed e orc := by
  unfold FirewallRules.revertEntry FirewallRules.RestoreFromSnapshot
    FirewallRules.entryStepFailed
  rcases ht : e.touched with _ | _ <;>
    rcases hh : e.had_before with _ | _ <;>
    rcases hp : e.snapshot.present with _ | _ <;>
    rcases hr : orc.removeOk with _ | _ <;>
    rcases ho : orc.restoreOk with _ | _ <;>
    simp [ht, hh, hp, hr, ho]

theorem revertLoop_trace (os : List FirewallRules.FwRule)
    (entries : List FirewallRules.Entry)
    (orcs : List FirewallRules.StepOracle) :
    (FirewallRules.revertLoop os entries orcs).2.2 =
      entries.map (fun e => e.name) := by
  induction entries generalizing os orcs with
  | nil => rfl
  | cons e rest ih => simp [FirewallRules.revertLoop, ih]

theorem revertLoop_err (os : List FirewallRules.FwRule)
    (entries : List FirewallRules.Entry)
    (orcs : List FirewallRules.StepOracle)
    (hlen : orcs.length = entries.length) :
    ((FirewallRules.revertLoop os entries orcs).2.1 = true ↔
      ∃ p ∈ entries.zip orcs,
        FirewallRules.entryStepFailed p.1 p.2 = true) := by
  induction entries generalizing os orcs with
  | nil => simp [FirewallRules.revertLoop]
  | cons e rest ih =>
    cases orcs with
    | nil => exact absurd hlen (by simp)
    | cons o orest =>
      have hlen' : orest.length = rest.length := by simpa using hlen
      simp only [FirewallRules.revertLoop, List.headD_cons, List.tail_cons,
        Bool.or_eq_true, revertEntry_err_eq, ih _ _ hlen', List.zip_cons_cons,
        List.mem_cons]
      constructor
      · rintro (h | ⟨p, hp, hfail⟩)
        · exact ⟨(e, o), Or.inl rfl, h⟩
        · exact ⟨p, Or.inr hp, hfail⟩
      · rintro ⟨p, hp | hp, hfail⟩
        · subst hp; exact Or.inl hfail
        · exact Or.inr ⟨p, hp, hfail⟩

open FirewallRules in
/-- C3: `Revert` processes the recorded entries in exact reverse
insertion order regardless of sub-step failures (the processed-name trace
is the reverse of the entries for every oracle), reports an aggregate
failure at the end iff at least one sub-step failed, clears the entries,
and a restore re-creates the snapshotted rule with all eleven fields
equal to the snapshot. -/
theorem fw_revert_reverse_order_and_aggregate (st : FwState)
    (os : List FwRule) (orcs : List StepOracle)
    (happ : st.applied = true) (hlen : orcs.length = st.entries.length) :
    (Revert st os orcs).2.2.2 = st.entries.reverse.map (fun e => e.name)
    ∧ ((Revert st os orcs).2.2.1.isSome = true ↔
        ∃ p ∈ st.entries.reverse.zip orcs, entryStepFailed p.1 p.2 = true)
    ∧ (Revert st os orcs).1.entries = []
    ∧ (∀ s : RuleSnapshot, s.present = true →
        findRule (RestoreFromSnapshot os s true).1 s.name
          = some (snapshotRule s))
    ∧ (∀ s : RuleSnapshot,
        (snapshotRule s).name = s.name ∧
        (snapshotRule s).description = s.description ∧
        (snapshotRule s).direction = s.direction ∧
        (snapshotRule s).action = s.action ∧
        (snapshotRule s).enabled = s.enabled ∧
        (snapshotRule s).profiles = s.profiles ∧
        (snapshotRule s).interface_types = s.interface_types ∧
        (snapshotRule s).protocol = s.protocol ∧
        (snapshotRule s).remote_addresses = s.remote_addresses ∧
        (snapshotRule s).remote_ports = s.remote_ports ∧
        (snapshotRule s).application_name = s.application_name) := by
  have hlenr : orcs.length = st.entries.reverse.length := by simpa using hlen
  refine ⟨?_, ?_, ?_, ?_, ?_⟩
  · rw [Revert]
    simp [happ, revertLoop_trace]
  · rw [Revert]
    simp only [happ, Bool.not_true, Bool.false_eq_true, if_false]
    rcases herr : (revertLoop os st.entries.reverse orcs).2.1 with _ | _
    · simp only [herr, Bool.false_eq_true, if_false]
      constructor
      · intro h; exact absurd h (by simp)
      · intro h
        exact absurd ((revertLoop_err os st.entries.reverse orcs hlenr).mpr h)
          (by simp [herr])
    · simp only [herr, if_true]
      constructor
      · intro _
        exact (revertLoop_err os st.entries.reverse orcs hlenr).mp herr
      · intro _; rfl
  · rw [Revert]; simp [happ]
  · intro s hs
    rw [RestoreFromSnapshot]
    simp only [hs, Bool.not_true, Bool.false_eq_true, if_false, if_true]
    rw [findRule, List.find?_append]
    have h1 : (RemoveIfExists os s.name).find? (fun r => r.name == s.name)
        = none := by
      rw [List.find?_eq_none]
      intro x hx
      have hxf := List.of_mem_filter hx
      simpa using hxf
    rw [h1]
    simp [snapshotRule]
  · intro s
    exact ⟨rfl, rfl, rfl, rfl, rfl, rfl, rfl, rfl, rfl, rfl, rfl⟩

open FirewallRules in
/-- Witness for C3 at a concrete input: reverting a state with one
recorded entry (whose removal succeeds) yields an empty trace error,
processes that entry, and clears the list. -/
theorem fw_revert_reverse_order_witness :
    (Revert sampleFwState [] [defaultOracle]).2.2.2
      = ["FlowForge Out TCP to 198.51.100.7:5555"]
    ∧ (Revert sampleFwState [] [defaultOracle]).1.entries = [] := by
  have h := fw_revert_reverse_order_and_aggregate sampleFwState []
    [defaultOracle] (by decide) (by decide)
  exact ⟨by rw [h.1]; decide, h.2.2.1⟩

/-! ## Network rollback (`src/Core/Client/NetworkRollback.cpp`)

The outcomes of the OS route-deletion and interface-restore calls are
explicit boolean oracles in `RevertEnv`; the claims settled here concern
`Revert`'s control flow (attempt-all, aggregate error, single use). -/

namespace NetworkRollback

/-- `NetworkRollback::Snapshot`: per-family baseline
`(have, auto_metric, metric, mtu)` plus the adapter LUID. -/
structure Snapshot where
  luid : Nat
  have_v4 : Bool
  v4_auto_metric : Bool
  v4_metric : Nat
  v4_mtu : Nat
  have_v6 : Bool
  v6_auto_metric : Bool
  v6_metric : Nat
  v6_mtu : Nat
deriving DecidableEq, Repr

/-- The `NetworkRollback` object: snapshot, server address, and the
`captured_` flag. -/
structure RollbackState where
  snap : Snapshot
  server_ip : String
  captured : Bool
deriving DecidableEq, Repr

/-- Outcomes of the OS calls made during one `Revert`:
`delete_routes_where` for the v4/v6 split-defaults and for the pinned
route, and `restore_iface` per family. -/
structure RevertEnv where
  delSplit4Ok : Bool
  delSplit6Ok : Bool
  delPinOk : Bool
  restore4Ok : Bool
  restore6Ok : Bool
deriving DecidableEq, Repr

/-- `NetworkRollback::RemoveSplitDefaults_` throws iff both families'
deletions failed (`!ok4 && !ok6`). -/
def removeSplitDefaultsThrows (env : RevertEnv) : Bool :=
  !env.delSplit4Ok && !env.delSplit6Ok

/-- `NetworkRollback::RemovePinnedRouteToServer_`: skip when the server
address is empty; delete in the family the address parses as, throwing
on deletion failure; throw invalid-argument when it parses as neither. -/
def removePinnedThrows (st : RollbackState) (env : RevertEnv) : Bool :=
  if st.server_ip == "" then false
  else if IsIPv4 st.server_ip then !env.delPinOk
  else if IsIPv6 st.server_ip then !env.delPinOk
  else true

/-- `NetworkRollback::RestoreBaseline_`: restore each captured family;
throw iff any restore failed. -/
def restoreBaselineThrows (st : RollbackState) (env : RevertEnv) : Bool :=
  !((!st.snap.have_v4 || env.restore4Ok) && (!st.snap.have_v6 || env.restore6Ok))

inductive RevertOutcome where
  | ok
  | logicError
  | runtimeError
deriving DecidableEq, Repr

/-- `NetworkRollback::Revert` (`NetworkRollback.cpp` lines 331-355):
throw a logic error when no baseline is captured; otherwise attempt all
three steps (each failure only recorded), consume the baseline, and
throw a runtime error at the end iff any step failed.  Also returns the
list of attempted steps. -/
def Revert (st : RollbackState) (env : RevertEnv) :
    RollbackState × RevertOutcome × List String :=
  if !st.captured then (st, RevertOutcome.logicError, [])
  else
    let e1 := removeSplitDefaultsThrows env
    let e2 := removePinnedThrows st env
    let e3 := restoreBaselineThrows st env
    ({ st with captured := false },
     if e1 || e2 || e3 then RevertOutcome.runtimeError else RevertOutcome.ok,
     ["RemoveSplitDefaults", "RemovePinnedRouteToServer", "RestoreBaseline"])

end NetworkRollback

open NetworkRollback in
/-- C8: with a captured baseline, `Revert` attempts all three steps for
every outcome of the individual steps (the attempted-step trace is always
the full three-step list), throws at the end iff at least one step
failed, consumes the baseline, and a second `Revert` after a completed
one throws a logic error for every environment. -/
theorem rollback_revert_all_steps_and_single_use (st : RollbackState)
    (env : RevertEnv) (hc : st.captured = true) :
    (Revert st env).2.2 =
      ["RemoveSplitDefaults", "RemovePinnedRouteToServer", "RestoreBaseline"]
    ∧ ((Revert st env).2.1 = RevertOutcome.runtimeError ↔
        (removeSplitDefaultsThrows env = true
          ∨ removePinnedThrows st env = true
          ∨ restoreBaselineThrows st env = true))
    ∧ (Revert st env).1.captured = false
    ∧ (∀ env2 : RevertEnv,
        (Revert (Revert st env).1 env2).2.1 = RevertOutcome.logicError) := by
  refine ⟨by simp [Revert, hc], ?_, by simp [Revert, hc], ?_⟩
  · rw [Revert]
    simp only [hc, Bool.not_true, Bool.false_eq_true, if_false]
    rcases h1 : removeSplitDefaultsThrows env with _ | _ <;>
      rcases h2 : removePinnedThrows st env with _ | _ <;>
      rcases h3 : restoreBaselineThrows st env with _ | _ <;>
      simp
  · intro env2
    have hcap : (Revert st env).1.captured = false := by simp [Revert, hc]
    rw [Revert, hcap]
    simp

open NetworkRollback in
/-- Witness for C8 at a concrete input: a captured state with a v4
server and a failing pinned-route deletion still attempts all three
steps, reports a runtime error, and a repeated `Revert` is a logic
error. -/
theorem rollback_revert_single_use_witness :
    (Revert
        { snap := { luid := 7, have_v4 := true, v4_auto_metric := true,
                    v4_metric := 25, v4_mtu := 1500, have_v6 := true,
                    v6_auto_metric := true, v6_metric := 25, v6_mtu := 1500 },
          server_ip := "198.51.100.7", captured := true }
        { delSplit4Ok := true, delSplit6Ok := true, delPinOk := false,
          restore4Ok := true, restore6Ok := true }).2.2 =
      ["RemoveSplitDefaults", "RemovePinnedRouteToServer", "RestoreBaseline"]
    ∧ (Revert
        (Revert
          { snap := { luid := 7, have_v4 := true, v4_auto_metric := true,
                      v4_metric := 25, v4_mtu := 1500, have_v6 := true,
                      v6_auto_metric := true, v6_metric := 25, v6_mtu := 1500 },
            server_ip := "198.51.100.7", captured := true }
          { delSplit4Ok := true, delSplit6Ok := true, delPinOk := false,
            restore4Ok := true, restore6Ok := true }).1
        { delSplit4Ok := true, delSplit6Ok := true, delPinOk := true,
          restore4Ok := true, restore6Ok := true }).2.1
      = RevertOutcome.logicError := by
  have h := rollback_revert_all_steps_and_single_use
    { snap := { luid := 7, have_v4 := true, v4_auto_metric := true,
                v4_metric := 25, v4_mtu := 1500, have_v6 := true,
                v6_auto_metric := true, v6_metric := 25, v6_mtu := 1500 },
      server_ip := "198.51.100.7", captured := true }
    { delSplit4Ok := true, delSplit6Ok := true, delPinOk := false,
      restore4Ok := true, restore6Ok := true } rfl
  exact ⟨h.1, h.2.2.2 _⟩

/-- Witness for C5: applying `["not.an.ip"]` fails and leaves a sample
registry untouched. -/
theorem dns_apply_rejects_before_write_witness :
    (DNS.Apply ["not.an.ip"] { v4 := some "9.9.9.9", v6 := none }
        DNS.initState).2.2.isSome = true
    ∧ (DNS.Apply ["not.an.ip"] { v4 := some "9.9.9.9", v6 := none }
        DNS.initState).1 = { v4 := some "9.9.9.9", v6 := none } :=
  dns_apply_rejects_before_write ["not.an.ip"]
    { v4 := some "9.9.9.9", v6 := none } DNS.initState
    (Or.inr ⟨"not.an.ip", by decide, by decide, by decide⟩)

end FlowForge
